import Mathlib

/-!
Verification development for the maplibre-tilepackage-protocol repository.

The JavaScript sources are shallowly embedded: machine reads become
functions over abstract byte buffers (`Nat → Nat`, one byte per index),
JS numbers used as tile coordinates and byte offsets become `Nat`
(they are non-negative integers throughout the relevant code), geometry
coordinates become `ℚ` (all the arithmetic performed by the clipping code
on the integer MVT inputs is exact), fallible code returns `Option` or
`Except`, and asynchronous I/O is abstracted by oracle parameters while
the control flow and state updates around it are translated verbatim.
-/

namespace TilePkg

/-! ## Bundle directory (src/shared-promise-cache.js, deserializeIndex) -/

/-- One decoded 8-byte bundle-directory entry (`{row, col, tileOffset, tileSize}`
as built by `deserializeIndex`). -/
structure TileInfo where
  row : Nat
  col : Nat
  tileOffset : Nat
  tileSize : Nat
deriving DecidableEq, Repr

/-- The 5-byte little-endian read of `deserializeIndex`: the JS loop
`for (i = 4; i >= 0; i--) tileOffset = (tileOffset << 8n) | byte(base + i)`. -/
def decodeOffset5 (buf : Nat → Nat) (base : Nat) : Nat :=
  List.foldl (fun acc i => (acc <<< 8) ||| buf (base + i)) 0 [4, 3, 2, 1, 0]

/-- The 3-byte little-endian read of `deserializeIndex`: the JS loop
`for (i = 2; i >= 0; i--) tileSize = (tileSize << 8n) | byte(base + 5 + i)`. -/
def decodeSize3 (buf : Nat → Nat) (base : Nat) : Nat :=
  List.foldl (fun acc i => (acc <<< 8) ||| buf (base + 5 + i)) 0 [2, 1, 0]

/-- One iteration of the row/col double loop of `deserializeIndex`:
`tileIndexOffset = 8 * (128 * (row % 128) + (col % 128))`, decode offset and
size, and store an entry only when `tileSize > 0` (otherwise the JS array
keeps a hole, modelled as `none`). -/
def deserializeEntry (buf : Nat → Nat) (row col : Nat) : Option TileInfo :=
  let tileIndexOffset := 8 * (128 * (row % 128) + (col % 128))
  let tileOffset := decodeOffset5 buf tileIndexOffset
  let tileSize := decodeSize3 buf tileIndexOffset
  if tileSize > 0 then
    some { row := row, col := col, tileOffset := tileOffset, tileSize := tileSize }
  else
    none

/-- `deserializeIndex` over the 131072-byte bundle index view: a 128×128
array of optional entries. -/
def deserializeIndex (buf : Nat → Nat) : List (List (Option TileInfo)) :=
  (List.range 128).map fun row => (List.range 128).map fun col => deserializeEntry buf row col

/-- `getTileInfoFromTileIndex(tileIndex, z, x, y)` from src/index.js:
`row = y % 128; col = x % 128; return tileIndex[row][col]` (`z` is unused in
the source as well; an out-of-range or hole access yields JS `undefined`,
modelled as `none`). -/
def getTileInfoFromTileIndex (tileIndex : List (List (Option TileInfo)))
    (z x y : Nat) : Option TileInfo :=
  let _ := z
  match (tileIndex.get? (y % 128)).bind fun rowArr => rowArr.get? (x % 128) with
  | some v => v
  | none => none

/-! ## Coverage map and ancestor search
(src/get-header-and-filelist.js, TilePackage.getZxyAttempt) -/

/-- A value stored in the coverage map: tilemap leaves are JS numbers,
the root holds the string sentinel (`"blob"`), and non-scalar tilemap nodes
are stored as the array itself. Strict JS equality `val === 1` only matches
`num 1`. -/
inductive CovVal where
  | num : Int → CovVal
  | str : String → CovVal
  | arr : CovVal
deriving DecidableEq, Repr

/-- The nested-object coverage map: level ↦ column ↦ row ↦ value, with
`none` for an absent key, mirroring `header.coverageMap[pz]`,
`level[px]`, `level[px][py]`. -/
def CoverageFun : Type := Nat → Option (Nat → Option (Nat → Option CovVal))

/-- The lookup `const level = header.coverageMap[pz]; level && level[px] ?
level[px][py] : undefined`. -/
def covValue (cov : CoverageFun) (pz px py : Nat) : Option CovVal :=
  match cov pz with
  | none => none
  | some level =>
    match level px with
    | none => none
    | some colMap => colMap py

/-- The ancestor-search loop of `getZxyAttempt`:
`while (pz > minZoom) { pz -= 1; px = floor(px/2); py = floor(py/2);
if (covValue == 1) return {pz,px,py}; }`, returning `none` when the loop
exhausts without a hit. -/
def findParentLoop (cov : CoverageFun) (minZoom : Nat) :
    Nat → Nat → Nat → Option (Nat × Nat × Nat)
  | 0, _, _ => none
  | pz + 1, px, py =>
    if minZoom < pz + 1 then
      let px2 := px / 2
      let py2 := py / 2
      if covValue cov pz px2 py2 = some (CovVal.num 1) then some (pz, px2, py2)
      else findParentLoop cov minZoom pz px2 py2
    else none

/-- Modelled from the spec: the list of ancestors the search visits, in
order — `(z-1, x>>1, y>>1)`, then repeatedly halved, down to and including
level `minZoom`. -/
def visitedAncestors (minZoom z x y : Nat) : List (Nat × Nat × Nat) :=
  (List.range (z - minZoom)).map fun i => (z - 1 - i, x / 2 ^ (i + 1), y / 2 ^ (i + 1))

/-- Modelled from the spec: the subdivision parent is the first (shallowest)
visited ancestor whose coverage value is exactly the number 1. -/
def specSubdivisionParent (cov : CoverageFun) (minZoom z x y : Nat) :
    Option (Nat × Nat × Nat) :=
  (visitedAncestors minZoom z x y).find? fun t =>
    decide (covValue cov t.1 t.2.1 t.2.2 = some (CovVal.num 1))

/-- The parent zoom returned by the search is strictly below the starting
zoom (used for termination of the recursive tile fetch). -/
theorem findParentLoop_fst_lt (cov : CoverageFun) (minZoom : Nat) :
    ∀ pz px py a b c, findParentLoop cov minZoom pz px py = some (a, b, c) → a < pz := by
  intro pz
  induction pz with
  | zero => intro px py a b c h; simp [findParentLoop] at h
  | succ k ih =>
    intro px py a b c h
    rw [findParentLoop] at h
    by_cases hk : minZoom < k + 1
    · rw [if_pos hk] at h
      by_cases hc : covValue cov k (px / 2) (py / 2) = some (CovVal.num 1)
      · simp only [hc, if_pos] at h
        cases h
        exact Nat.lt_succ_self k
      · rw [if_neg hc] at h
        exact Nat.lt_succ_of_lt (ih (px / 2) (py / 2) a b c h)
    · rw [if_neg hk] at h
      cases h

/-- The parent zoom returned by the search is at least `minZoom`. -/
theorem findParentLoop_fst_ge (cov : CoverageFun) (minZoom : Nat) :
    ∀ pz px py a b c, findParentLoop cov minZoom pz px py = some (a, b, c) → minZoom ≤ a := by
  intro pz
  induction pz with
  | zero => intro px py a b c h; simp [findParentLoop] at h
  | succ k ih =>
    intro px py a b c h
    rw [findParentLoop] at h
    by_cases hk : minZoom < k + 1
    · rw [if_pos hk] at h
      by_cases hc : covValue cov k (px / 2) (py / 2) = some (CovVal.num 1)
      · simp only [hc, if_pos] at h
        cases h
        exact Nat.lt_succ_iff.mp hk
      · rw [if_neg hc] at h
        exact ih (px / 2) (py / 2) a b c h
    · rw [if_neg hk] at h
      cases h

/-! ## Tile filename (src/index.js, calculateFilename) -/

/-- JS `String.prototype.padStart(targetLength, padChar)`. -/
def padStart (s : String) (targetLength : Nat) (pad : Char) : String :=
  String.mk (List.replicate (targetLength - s.length) pad) ++ s

/-- JS `n.toString(16)` for a non-negative integer: lowercase hex digits. -/
def toHexString (n : Nat) : String :=
  String.mk (Nat.toDigits 16 n)

/-- `calculateFilename(z, x, y, header)`: zoom zero-padded to 2 decimal
digits, 128-aligned row/col origins in 4-digit lowercase hex, prefix
`tile` for TPKX and `p12/tile` otherwise. -/
def calculateFilename (z x y : Nat) (headerType : String) : String :=
  let zoom := padStart (toString z) 2 '0'
  let baseRow := y / 128 * 128
  let baseCol := x / 128 * 128
  let rowHex := padStart (toHexString baseRow) 4 '0'
  let colHex := padStart (toHexString baseCol) 4 '0'
  let basePath := if headerType = "tpkx" then "tile" else "p12/tile"
  basePath ++ "/L" ++ zoom ++ "/R" ++ rowHex ++ "C" ++ colHex ++ ".bundle"

/-! ## Facade tile lookup (src/index.js and the subdivision-enabled
TilePackage.getZxyAttempt cited from src/get-header-and-filelist.js) -/

/-- A file-table entry as built by `getHeaderAndFileList`. -/
structure FileEntry where
  size : Nat
  relativeOffset : Nat
  absoluteOffset : Nat
deriving DecidableEq, Repr

/-- The slice of the typed Header that `getZxyAttempt` consults. -/
structure Header where
  type : String
  packageType : String
  minZoom : Nat
  maxZoom : Nat
  files : String → Option FileEntry
  coverageMap : Option CoverageFun
  etag : Option String

/-- The `{data, cacheControl, expires}` record returned for a tile. -/
structure TileResult where
  data : List Nat
  cacheControl : Option String
  expires : Option String
deriving DecidableEq, Repr

/-- The subdivided-tile store `SharedPromiseCache.subdivided`: a map in
insertion order from string key to tile bytes. -/
abbrev SubCache : Type := List (String × List Nat)

/-- Key construction shared by `getSubdivided`/`setSubdivided`:
`sourceKey|z|x|y|Subdivided`. -/
def subdividedKey (sourceKey : String) (z x y : Nat) : String :=
  sourceKey ++ "|" ++ toString z ++ "|" ++ toString x ++ "|" ++ toString y ++ "|Subdivided"

/-- `SharedPromiseCache.getSubdivided`. -/
def getSubdivided (cache : SubCache) (sourceKey : String) (z x y : Nat) : Option (List Nat) :=
  List.lookup (subdividedKey sourceKey z x y) cache

/-- `SharedPromiseCache.setSubdivided`: insert only when the key is absent;
when the store exceeds `2 * maxCacheEntries`, delete the first
`max (size/2) 1` entries in iteration (insertion) order — the JS loop
deletes at least one entry before `toRemove <= 0` breaks it. -/
def setSubdivided (cache : SubCache) (maxCacheEntries : Nat)
    (sourceKey : String) (z x y : Nat) (bytes : List Nat) : SubCache :=
  let key := subdividedKey sourceKey z x y
  if (List.lookup key cache).isSome then cache
  else
    let grown : SubCache := cache ++ [(key, bytes)]
    if maxCacheEntries * 2 < grown.length then
      grown.drop (max (grown.length / 2) 1)
    else grown

/-- The oracles around `getZxyAttempt`: the decoded bundle directory the
shared cache returns for a bundle path, the tile slab read composed with
decompression, and the decode-transform-clip-encode pipeline of
`subdivideVectorTile` (whose early-return and failure handling stay in the
embedding; `none` models a thrown subdivision error). -/
structure TileEnv where
  header : Header
  tileIndexOf : String → List (List (Option TileInfo))
  readTile : Nat → Nat → TileResult
  subdivideOracle : List Nat → Nat → Nat → Nat → Nat → Nat → Nat → Option (List Nat)
  maxDz : Nat
  maxCacheEntries : Nat
  sourceKey : String

/-- The direct-lookup prefix of `getZxyAttempt`: bundle filename, file
table, cached bundle directory, and the `tileInfo && tileInfo.tileSize > 0`
guard; `none` means control falls through to the coverage-map block. -/
def directLookup (env : TileEnv) (z x y : Nat) : Option TileResult :=
  let file := calculateFilename z x y env.header.type
  match env.header.files file with
  | none => none
  | some fe =>
    match getTileInfoFromTileIndex (env.tileIndexOf file) z x y with
    | none => none
    | some tileInfo =>
      if tileInfo.tileSize > 0 then
        some (env.readTile (fe.absoluteOffset + tileInfo.tileOffset) tileInfo.tileSize)
      else none

/-- The result of one `getZxyAttempt` call: the returned tile (or JS
`undefined` as `none`), the subdivided store afterwards, and how many times
`subdivideVectorTile` was invoked during the call. -/
structure ZxyResult where
  tile : Option TileResult
  cache : SubCache
  subdivideCalls : Nat

/-- `TilePackage.getZxyAttempt(z, x, y)` (subdivision-enabled variant):
zoom-range check, direct lookup, then for an indexed VTPK the ancestor
search, recursive parent fetch, subdivided-cache probe, `maxDz` cap,
subdivision, and cache fill. The recursion is on the strictly smaller
parent zoom. -/
def getZxyAttempt (env : TileEnv) (z x y : Nat) (cache : SubCache) : ZxyResult :=
  if z < env.header.minZoom ∨ env.header.maxZoom < z then
    { tile := none, cache := cache, subdivideCalls := 0 }
  else
    match directLookup env z x y with
    | some r => { tile := some r, cache := cache, subdivideCalls := 0 }
    | none =>
      if env.header.packageType = "vtpk" then
        match env.header.coverageMap with
        | some cov =>
          match hfp : findParentLoop cov env.header.minZoom z x y with
          | some (pz, px, py) =>
            let parentRes := getZxyAttempt env pz px py cache
            match parentRes.tile with
            | some parent =>
              match getSubdivided parentRes.cache env.sourceKey z x y with
              | some cached =>
                let tr : TileResult :=
                  { data := cached, cacheControl := parent.cacheControl,
                    expires := parent.expires }
                { tile := some tr, cache := parentRes.cache,
                  subdivideCalls := parentRes.subdivideCalls }
              | none =>
                if env.maxDz < z - pz then
                  { tile := none, cache := parentRes.cache,
                    subdivideCalls := parentRes.subdivideCalls }
                else
                  match env.subdivideOracle parent.data pz px py z x y with
                  | some overzoomed =>
                    let tr : TileResult :=
                      { data := overzoomed, cacheControl := parent.cacheControl,
                        expires := parent.expires }
                    { tile := some tr,
                      cache := setSubdivided parentRes.cache env.maxCacheEntries
                        env.sourceKey z x y overzoomed,
                      subdivideCalls := parentRes.subdivideCalls + 1 }
                  | none =>
                    { tile := none, cache := parentRes.cache,
                      subdivideCalls := parentRes.subdivideCalls + 1 }
            | none =>
              { tile := none, cache := parentRes.cache,
                subdivideCalls := parentRes.subdivideCalls }
          | none => { tile := none, cache := cache, subdivideCalls := 0 }
        | none => { tile := none, cache := cache, subdivideCalls := 0 }
      else { tile := none, cache := cache, subdivideCalls := 0 }
termination_by z
decreasing_by
  exact findParentLoop_fst_lt cov env.header.minZoom z x y pz px py hfp

/-- `TilePackage.getZxy` wraps `getZxyAttempt` in the EtagMismatch retry;
the pure embedding raises no exception, so the wrapper reduces to a single
attempt. -/
def getZxy (env : TileEnv) (z x y : Nat) (cache : SubCache) : ZxyResult :=
  getZxyAttempt env z x y cache

/-! ## Geometry clipping (src/tilecutter subdivide, clipPoints / clipAxis)

Coordinates are embedded as `ℚ`: the JS arithmetic on the integer MVT
inputs (`p*scale - offset` and the segment intersections, whose divisors
are nonzero whenever the source calls them) is exact. -/

/-- A 2D point (`@mapbox/point-geometry`); `equals` is componentwise
equality. -/
structure Pt where
  x : ℚ
  y : ℚ
deriving DecidableEq, Repr

/-- `clipPoints(geometry, min, max)`: keep each point whose two coordinates
lie within the closed interval, each as its own single-point ring. -/
def clipPoints (geometry : List (List Pt)) (lo hi : ℚ) : List (List Pt) :=
  match geometry with
  | [] => []
  | ring :: rest =>
    (ring.filter fun p =>
        decide (lo ≤ p.x ∧ p.x ≤ hi ∧ lo ≤ p.y ∧ p.y ≤ hi)).map (fun p => [p])
      ++ clipPoints rest lo hi

/-- The coordinate selected by `axis === 0 ? p.x : p.y`. -/
def axisCoord (axis : Nat) (p : Pt) : ℚ :=
  if axis = 0 then p.x else p.y

/-- `intersectX(p1, p2, x)`. -/
def intersectX (p1 p2 : Pt) (xv : ℚ) : Pt :=
  let t := (xv - p1.x) / (p2.x - p1.x)
  { x := xv, y := p1.y + (p2.y - p1.y) * t }

/-- `intersectY(p1, p2, y)`. -/
def intersectY (p1 p2 : Pt) (yv : ℚ) : Pt :=
  let t := (yv - p1.y) / (p2.y - p1.y)
  { x := p1.x + (p2.x - p1.x) * t, y := yv }

/-- `axis === 0 ? intersectX : intersectY`. -/
def intersectPt (axis : Nat) (p1 p2 : Pt) (v : ℚ) : Pt :=
  if axis = 0 then intersectX p1 p2 v else intersectY p1 p2 v

/-- One iteration of the `clipAxis` segment loop over the pair `(p1, p2)`,
threading the open slice and the emitted slices; for non-polygons an exit
flushes the slice. -/
def clipAxisStep (p1 p2 : Pt) (start endv : ℚ) (axis : Nat) (isPolygon : Bool)
    (slice : List Pt) (out : List (List Pt)) : List Pt × List (List Pt) :=
  let a := axisCoord axis p1
  let b := axisCoord axis p2
  let slice1 :=
    if a < start ∧ start < b then slice ++ [intersectPt axis p1 p2 start]
    else if endv < a ∧ b < endv then slice ++ [intersectPt axis p1 p2 endv]
    else if start ≤ a ∧ a ≤ endv then slice ++ [p1]
    else slice
  let step2 : List Pt × Bool :=
    if b < start ∧ start ≤ a then (slice1 ++ [intersectPt axis p1 p2 start], true)
    else (slice1, false)
  let step3 : List Pt × Bool :=
    if endv < b ∧ a ≤ endv then (step2.1 ++ [intersectPt axis p1 p2 endv], true)
    else step2
  if isPolygon = false ∧ step3.2 = true then ([], out ++ [step3.1])
  else (step3.1, out)

/-- The `for (i = 0; i < line.length - 1; i++)` loop of `clipAxis` over
consecutive point pairs. -/
def clipAxisLoop (start endv : ℚ) (axis : Nat) (isPolygon : Bool) :
    List Pt → List Pt → List (List Pt) → List Pt × List (List Pt)
  | p1 :: p2 :: rest, slice, out =>
    let step := clipAxisStep p1 p2 start endv axis isPolygon slice out
    clipAxisLoop start endv axis isPolygon (p2 :: rest) step.1 step.2
  | _, slice, out => (slice, out)

/-- The polygon re-closing fix-up: when the slice is non-empty and its
first point does not equal its last, append a copy of the first point. -/
def closeSlicePolygon (slice : List Pt) : List Pt :=
  match slice with
  | [] => []
  | h :: t =>
    if (h :: t).getLast (List.cons_ne_nil h t) = h then h :: t
    else (h :: t) ++ [h]

/-- `clipAxis(line, start, end, axis, isPolygon)`: run the segment loop,
append the last point when in range, re-close polygons, and emit the final
slice when non-empty. (The JS indexes `line[line.length - 1]`; on an empty
input line the loop body never runs and the embedding skips the
out-of-range access.) -/
def clipAxis (line : List Pt) (start endv : ℚ) (axis : Nat) (isPolygon : Bool) :
    List (List Pt) :=
  let run := clipAxisLoop start endv axis isPolygon line [] []
  let slice1 :=
    match line.getLast? with
    | some lastPt =>
      if start ≤ axisCoord axis lastPt ∧ axisCoord axis lastPt ≤ endv then run.1 ++ [lastPt]
      else run.1
    | none => run.1
  let slice2 := if isPolygon then closeSlicePolygon slice1 else slice1
  if slice2.length > 0 then run.2 ++ [slice2] else run.2

/-- `clipLinesWrapper`: clip each ring on axis 0, then each produced slice
on axis 1. -/
def clipLinesWrapper (geometry : List (List Pt)) (lo hi : ℚ) (isPolygon : Bool) :
    List (List Pt) :=
  match geometry with
  | [] => []
  | line :: rest =>
    ((clipAxis line lo hi 0 isPolygon).map fun seg =>
        clipAxis seg lo hi 1 isPolygon).flatten
      ++ clipLinesWrapper rest lo hi isPolygon

/-- `clipGeometry(geometry, type, min, max)`: dispatch on the MVT geometry
type (1 point, 2 line, 3 polygon, anything else empty). -/
def clipGeometry (geometry : List (List Pt)) (gtype : Nat) (lo hi : ℚ) :
    List (List Pt) :=
  if gtype = 1 then clipPoints geometry lo hi
  else if gtype = 2 then clipLinesWrapper geometry lo hi false
  else if gtype = 3 then clipLinesWrapper geometry lo hi true
  else []

/-! ## subdivideVectorTile early return (src/tilecutter subdivide) -/

/-- `subdivideVectorTile` with the decode-transform-clip-encode pipeline
(the external vector-tile libraries) abstracted as `pipeline`: `dz <= 0`
returns the input bytes untouched; an inconsistent parent/target pair
throws; otherwise the pipeline produces the re-encoded bytes. Zooms are
`Int` because the JS subtraction `targetZ - parentZ` may be negative. -/
def subdivideVectorTile
    (pipeline : List Nat → Int → Int → Int → Int → Int → Int → Except String (List Nat))
    (parentPbf : List Nat)
    (parentZ parentX parentY targetZ targetX targetY : Int) :
    Except String (List Nat) :=
  let dz := targetZ - parentZ
  if dz ≤ 0 then Except.ok parentPbf
  else
    let scale : Int := 2 ^ dz.toNat
    let expectedParentX := Int.fdiv targetX scale
    let expectedParentY := Int.fdiv targetY scale
    if expectedParentX ≠ parentX ∨ expectedParentY ≠ parentY then
      Except.error "Target tile not contained within parent tile coordinates."
    else
      pipeline parentPbf parentZ parentX parentY targetZ targetX targetY

/-! ## SharedPromiseCache state (src/shared-promise-cache.js)

The header/resource/directory slots hold in-flight promises; for the state
transitions performed by `getHeader`, `prune` and `invalidate` only the
keys and `lastUsed` counters matter, so a slot is embedded as its key and
counter, in Map insertion order. The model below gives the eventual state
once the header promise created by the call has resolved successfully. -/

/-- The mutable state of a `SharedPromiseCache`. -/
structure SPCache where
  cache : List (String × Nat)
  invalidations : List String
  counter : Nat
  maxCacheEntries : Nat
  subdivided : SubCache

/-- JS `Map.prototype.delete` on the slot map. -/
def eraseKey (m : List (String × Nat)) (k : String) : List (String × Nat) :=
  m.filter fun kv => kv.1 ≠ k

/-- The `forEach` minimum scan of `prune`: the key of the slot with the
smallest `lastUsed`, taking the first such slot in iteration order. -/
def minLastUsedKey (m : List (String × Nat)) : Option String :=
  match m with
  | [] => none
  | kv :: rest =>
    match minLastUsedKey rest with
    | none => some kv.1
    | some k =>
      match List.lookup k rest with
      | some u => if u < kv.2 then some k else some kv.1
      | none => some kv.1

/-- `SharedPromiseCache.prune`: when the slot map has reached
`maxCacheEntries`, evict the single least-recently-used slot. -/
def pruneSP (c : SPCache) : SPCache :=
  if c.maxCacheEntries ≤ c.cache.length then
    match minLastUsedKey c.cache with
    | some k => { c with cache := eraseKey c.cache k }
    | none => c
  else c

/-- Replace the `lastUsed` counter of an existing slot. -/
def setLastUsed (m : List (String × Nat)) (k : String) (u : Nat) : List (String × Nat) :=
  m.map fun kv => if kv.1 = k then (kv.1, u) else kv

/-- `SharedPromiseCache.getHeader`, state effects only: a hit bumps the
slot's `lastUsed`; a miss inserts a fresh slot whose promise, once
resolved, runs `prune`. -/
def getHeaderState (c : SPCache) (key : String) : SPCache :=
  match List.lookup key c.cache with
  | some _ =>
    { c with cache := setLastUsed c.cache key c.counter, counter := c.counter + 1 }
  | none =>
    pruneSP { c with cache := c.cache ++ [(key, c.counter)], counter := c.counter + 1 }

/-- `SharedPromiseCache.invalidate(source)`: coalesce onto an in-flight
invalidation when one exists; otherwise delete the header slot and
re-issue `getHeader`. The invalidations entry registered for the call is
removed again when the reload succeeds, so the eventual `invalidations`
list is unchanged. -/
def invalidateSP (c : SPCache) (key : String) : SPCache :=
  if c.invalidations.contains key then c
  else getHeaderState { c with cache := eraseKey c.cache key } key

/-! ## FetchSource ETag validation and the facade retry wrapper
(src/source.js FetchSource.getBytes; src/index.js getZxy et al.) -/

/-- A thrown JS error, identified the way the facade discriminates it: the
`EtagMismatch` subclass carries `name = "EtagMismatch"`, a plain
`new Error(...)` carries `name = "Error"`. -/
structure JsError where
  name : String
  message : String
deriving DecidableEq, Repr

/-- JS string truthiness for the `etag && newEtag && ...` guard. -/
def strTruthy (s : Option String) : Bool :=
  match s with
  | none => false
  | some v => v ≠ ""

/-- The weak-ETag strip in `FetchSource.getBytes`:
`if (newEtag && newEtag.startsWith("W/")) newEtag = null`. -/
def stripWeakEtag (responseEtag : Option String) : Option String :=
  match responseEtag with
  | none => none
  | some e => if e.startsWith "W/" then none else some e

/-- The error thrown by `FetchSource.getBytes` on a 416 status or a
response ETag differing from the caller's: a plain `Error` (the source
never constructs the `EtagMismatch` class). -/
def fetchEtagError : JsError :=
  { name := "Error",
    message := "Server returned non-matching ETag after one retry." }

/-- The ETag validation slice of `FetchSource.getBytes`:
`if (resp.status === 416 || (etag && newEtag && newEtag !== etag)) throw
new Error(...)`; on success the stripped response ETag is surfaced. -/
def fetchSourceEtagCheck (status : Nat) (priorEtag responseEtag : Option String) :
    Except JsError (Option String) :=
  let newEtag := stripWeakEtag responseEtag
  if status = 416 ∨ (strTruthy priorEtag ∧ strTruthy newEtag ∧ newEtag ≠ priorEtag) then
    Except.error fetchEtagError
  else
    Except.ok newEtag

/-- The retry wrapper shared by `getZxy`, `getMetadata`, `getResource` and
`getStyle`: run the attempt; an error whose class is `EtagMismatch`
invalidates the header slot once and re-runs the attempt; any other error
propagates. `attempt n` is the outcome of the (n+1)-th run; the second
component counts `cache.invalidate` calls. -/
def retryOnEtagMismatch {α : Type} (attempt : Nat → Except JsError α) :
    Except JsError α × Nat :=
  match attempt 0 with
  | Except.ok v => (Except.ok v, 0)
  | Except.error e =>
    if e.name = "EtagMismatch" then (attempt 1, 1)
    else (Except.error e, 0)

/-! ## JS objects, jsonToHeader and the getMetadata byte-range request
(src/get-header-and-filelist.js jsonToHeader; src/index.js
getMetadataAttempt) -/

/-- A JS/JSON value. Property access on `undef`/`null` throws, on other
primitives yields `undef`. JSON numbers are embedded as `ℚ` (JS doubles on
the values appearing here are exact). -/
inductive JsonValue where
  | undef : JsonValue
  | null : JsonValue
  | nan : JsonValue
  | boolean : Bool → JsonValue
  | num : ℚ → JsonValue
  | str : String → JsonValue
  | obj : List (String × JsonValue) → JsonValue

/-- JS property access `v[k]`: `none` models a thrown TypeError. -/
def getProp : JsonValue → String → Option JsonValue
  | JsonValue.obj fields, k => some ((fields.lookup k).getD JsonValue.undef)
  | JsonValue.undef, _ => none
  | JsonValue.null, _ => none
  | _, _ => some JsonValue.undef

/-- JS truthiness. -/
def jsTruthy : JsonValue → Bool
  | JsonValue.undef => false
  | JsonValue.null => false
  | JsonValue.nan => false
  | JsonValue.boolean b => b
  | JsonValue.num q => q ≠ 0
  | JsonValue.str s => s ≠ ""
  | JsonValue.obj _ => true

/-- JS `a || b`. -/
def jsOr (a b : JsonValue) : JsonValue :=
  if jsTruthy a then a else b

/-- JS `Number(v)` coercion on the values that can reach it here (the
`extent` members are JSON numbers; numeric-string parsing is not
modelled and yields the NaN marker). -/
def jsNumber : JsonValue → JsonValue
  | JsonValue.num q => JsonValue.num q
  | JsonValue.null => JsonValue.num 0
  | JsonValue.boolean b => JsonValue.num (if b then 1 else 0)
  | _ => JsonValue.nan

/-- The guarded spatial-reference read of `jsonToHeader`:
`try { json.tileInfo.spatialReference.latestWkid } catch { undefined }`. -/
def spatialReferenceOf (json : JsonValue) : JsonValue :=
  match (getProp json "tileInfo").bind (fun ti => getProp ti "spatialReference")
      |>.bind (fun sr => getProp sr "latestWkid") with
  | some v => v
  | none => JsonValue.undef

/-- The direct top-level property reads of the `jsonToHeader` literal:
type, name, serviceDescription, copyrightText, version, metadataOffset,
metadataLength (grouped to keep `Option.bind` nesting shallow; the reads
are effect-free so grouping does not change the result). -/
def headerPropsA (json : JsonValue) :
    Option (JsonValue × JsonValue × JsonValue × JsonValue × JsonValue × JsonValue × JsonValue) := do
  let vType ← getProp json "type"
  let vName ← getProp json "name"
  let vDescription ← getProp json "serviceDescription"
  let vAttribution ← getProp json "copyrightText"
  let vVersion ← getProp json "version"
  let vMetadataOffset ← getProp json "metadataOffset"
  let vMetadataLength ← getProp json "metadataLength"
  pure (vType, vName, vDescription, vAttribution, vVersion, vMetadataOffset, vMetadataLength)

/-- The tile-info dependent reads of the `jsonToHeader` literal:
`packageType` (from `json.tileInfo.format` truthiness), `tileCompression`
(guarded by `json.resourceInfo`, with the `|| "none"` fallback),
`tileType` (`json.tileInfo.format || json.tileImageInfo.format`) and
`tileSize` (`json.tileInfo.rows`). -/
def headerPropsB (json : JsonValue) :
    Option (JsonValue × JsonValue × JsonValue × JsonValue) := do
  let tileInfo ← getProp json "tileInfo"
  let format ← getProp tileInfo "format"
  let vPackageType := JsonValue.str (if jsTruthy format then "vtpk" else "tpkx")
  let resourceInfo ← getProp json "resourceInfo"
  let vTileCompression ←
    if jsTruthy resourceInfo then
      (getProp resourceInfo "tileCompression").bind fun tc =>
        pure (jsOr tc (JsonValue.str "none"))
    else pure (JsonValue.str "none")
  let vTileType ←
    if jsTruthy format then pure format
    else
      (getProp json "tileImageInfo").bind fun tileImageInfo =>
        getProp tileImageInfo "format"
  let vTileSize ← getProp tileInfo "rows"
  pure (vPackageType, vTileCompression, vTileType, vTileSize)

/-- The zoom and extent reads of the `jsonToHeader` literal. -/
def headerPropsC (json : JsonValue) :
    Option (JsonValue × JsonValue × JsonValue × JsonValue × JsonValue × JsonValue × JsonValue) := do
  let vMinZoom ← getProp json "minZoom"
  let vMinLOD ← getProp json "minLOD"
  let vMaxZoom ← getProp json "maxZoom"
  let vMaxLOD ← getProp json "maxLOD"
  let extent ← getProp json "extent"
  let vXmin ← getProp extent "xmin"
  let vYmin ← getProp extent "ymin"
  pure (jsOr vMinZoom vMinLOD, jsOr vMaxZoom vMaxLOD, extent, vXmin, vYmin,
    JsonValue.undef, JsonValue.undef)

/-- `jsonToHeader(json, files, etag)`: the header object literal of
src/get-header-and-filelist.js, with the guarded
`json.tileInfo.spatialReference.latestWkid` try/catch and the `|| 0`,
`|| "none"` fallbacks; `none` models a TypeError escaping the function. -/
def jsonToHeader (json : JsonValue) (files : JsonValue) (etag : JsonValue) :
    Option JsonValue := do
  let spatialReference := spatialReferenceOf json
  let (vType, vName, vDescription, vAttribution, vVersion, vMetadataOffset,
    vMetadataLength) ← headerPropsA json
  let (vPackageType, vTileCompression, vTileType, vTileSize) ← headerPropsB json
  let (vMinZoom, vMaxZoom, extent, vXmin, vYmin, _, _) ← headerPropsC json
  let vXmax ← getProp extent "xmax"
  let vYmax ← getProp extent "ymax"
  let vCoverageMap ← getProp json "coverageMap"
  pure (JsonValue.obj
    [("type", vType),
     ("name", vName),
     ("description", vDescription),
     ("attribution", vAttribution),
     ("version", vVersion),
     ("metadataOffset", jsOr vMetadataOffset (JsonValue.num 0)),
     ("metadataLength", jsOr vMetadataLength (JsonValue.num 0)),
     ("packageType", vPackageType),
     ("spatialReference", spatialReference),
     ("tileCompression", vTileCompression),
     ("tileType", vTileType),
     ("tileSize", vTileSize),
     ("minZoom", vMinZoom),
     ("maxZoom", vMaxZoom),
     ("minLon", jsNumber vXmin),
     ("minLat", jsNumber vYmin),
     ("maxLon", jsNumber vXmax),
     ("maxLat", jsNumber vYmax),
     ("files", files),
     ("coverageMap", vCoverageMap),
     ("etag", etag)])

/-- The byte-range request issued by `getMetadataAttempt`: for a VTPK
header it calls `source.getBytes(header.jsonMetadataOffset,
header.jsonMetadataLength, ...)`; the result is the `(offset, length)`
argument pair of that call, `none` when no read happens (non-VTPK) or a
property access throws. -/
def getMetadataRequestRange (header : JsonValue) : Option (JsonValue × JsonValue) :=
  match getProp header "packageType" with
  | none => none
  | some pt =>
    match pt with
    | JsonValue.str s =>
      if s = "vtpk" then
        match getProp header "jsonMetadataOffset", getProp header "jsonMetadataLength" with
        | some off, some len => some (off, len)
        | _, _ => none
      else none
    | _ => none

/-! ## Central directory entry parsing (src/get-header-and-filelist.js,
getHeaderAndFileList) -/

/-- Little-endian `DataView.getUint16(o, true)` over a byte buffer. -/
def getUint16LE (buf : Nat → Nat) (o : Nat) : Nat :=
  buf o + 256 * buf (o + 1)

/-- Little-endian `DataView.getUint32(o, true)`. -/
def getUint32LE (buf : Nat → Nat) (o : Nat) : Nat :=
  buf o + 256 * buf (o + 1) + 256 ^ 2 * buf (o + 2) + 256 ^ 3 * buf (o + 3)

/-- Little-endian `DataView.getBigUint64(o, true)`. -/
def getUint64LE (buf : Nat → Nat) (o : Nat) : Nat :=
  buf o + 256 * buf (o + 1) + 256 ^ 2 * buf (o + 2) + 256 ^ 3 * buf (o + 3)
    + 256 ^ 4 * buf (o + 4) + 256 ^ 5 * buf (o + 5) + 256 ^ 6 * buf (o + 6)
    + 256 ^ 7 * buf (o + 7)

/-- Fuel-indexed UTF-8 decoding step (each step consumes at least one
byte, so a fuel of the byte count is always sufficient). -/
def utf8DecodeAux : Nat → List Nat → List Nat
  | 0, _ => []
  | _, [] => []
  | fuel + 1, b :: rest =>
    if b < 128 then b :: utf8DecodeAux fuel rest
    else if 194 ≤ b ∧ b ≤ 223 then
      match rest with
      | b1 :: rest1 =>
        if 128 ≤ b1 ∧ b1 ≤ 191 then
          ((b - 192) * 64 + (b1 - 128)) :: utf8DecodeAux fuel rest1
        else 65533 :: utf8DecodeAux fuel rest
      | [] => [65533]
    else if 224 ≤ b ∧ b ≤ 239 then
      match rest with
      | b1 :: b2 :: rest2 =>
        if 128 ≤ b1 ∧ b1 ≤ 191 ∧ 128 ≤ b2 ∧ b2 ≤ 191 then
          ((b - 224) * 4096 + (b1 - 128) * 64 + (b2 - 128)) :: utf8DecodeAux fuel rest2
        else 65533 :: utf8DecodeAux fuel rest
      | _ => 65533 :: utf8DecodeAux fuel rest
    else if 240 ≤ b ∧ b ≤ 244 then
      match rest with
      | b1 :: b2 :: b3 :: rest3 =>
        if 128 ≤ b1 ∧ b1 ≤ 191 ∧ 128 ≤ b2 ∧ b2 ≤ 191 ∧ 128 ≤ b3 ∧ b3 ≤ 191 then
          ((b - 240) * 262144 + (b1 - 128) * 4096 + (b2 - 128) * 64 + (b3 - 128))
            :: utf8DecodeAux fuel rest3
        else 65533 :: utf8DecodeAux fuel rest
      | _ => 65533 :: utf8DecodeAux fuel rest
    else 65533 :: utf8DecodeAux fuel rest

/-- `TextDecoder("utf-8")` over a byte list, producing Unicode code
points; malformed sequences decode to U+FFFD (the decoder is non-fatal;
the exact replacement granularity on malformed input is immaterial here —
entry names in the claims are well-formed). -/
def utf8Decode (bytes : List Nat) : List Nat :=
  utf8DecodeAux bytes.length bytes

/-- The JS `String.prototype.length` of a decoded string: UTF-16 code
units (astral code points count twice). -/
def jsStringLength (codePoints : List Nat) : Nat :=
  (codePoints.map fun c => if 65536 ≤ c then 2 else 1).sum

/-- One parsed central directory entry as stored into
`tilePackageFiles[filename]`. -/
structure CdEntry where
  filename : List Nat
  size : Nat
  relativeOffset : Nat
  absoluteOffset : Nat
deriving DecidableEq, Repr

/-- The per-entry slice of `getHeaderAndFileList`: read `compressedSize`
(u32 @20), `nameLen` (u16 @28), `extraLen` (u16 @30), `relativeOffset`
(u32 @42), UTF-8 decode the name, apply the ZIP64 extended-info
replacement of `0xffffffff` sentinels (tag 0x0001: size first, then
offset), and compute `absoluteOffset = relativeOffset + 30 +
filename.length` — the JS string length of the decoded name. -/
def parseCentralDirEntry (buf : Nat → Nat) (entryStart : Nat) : CdEntry :=
  let sizeFile0 := getUint32LE buf (entryStart + 20)
  let sizeFileName := getUint16LE buf (entryStart + 28)
  let sizeExtraField := getUint16LE buf (entryStart + 30)
  let relativeOffset0 := getUint32LE buf (entryStart + 42)
  let nameBytes := (List.range sizeFileName).map fun i => buf (entryStart + 46 + i)
  let filename := utf8Decode nameBytes
  let zip64Applied : Nat × Nat :=
    if (sizeFile0 = 4294967295 ∨ relativeOffset0 = 4294967295) ∧ sizeExtraField > 0 then
      if getUint16LE buf (entryStart + 46 + sizeFileName) = 1 then
        let extBase := entryStart + 46 + sizeFileName
        let withSize : Nat × Nat :=
          if sizeFile0 = 4294967295 then (getUint64LE buf (extBase + 4), 8)
          else (sizeFile0, 0)
        let relativeOffset1 :=
          if relativeOffset0 = 4294967295 then getUint64LE buf (extBase + 4 + withSize.2)
          else relativeOffset0
        (withSize.1, relativeOffset1)
      else (sizeFile0, relativeOffset0)
    else (sizeFile0, relativeOffset0)
  { filename := filename,
    size := zip64Applied.1,
    relativeOffset := zip64Applied.2,
    absoluteOffset := zip64Applied.2 + 30 + jsStringLength filename }

/-! ## Helper lemmas -/

/-- A BigInt shift-or step appends one little-endian byte:
`(t << 8) | b = t * 256 + b` for `b < 256`. -/
theorem shiftOr_byte_eq (t b : Nat) (h : b < 256) : (t <<< 8) ||| b = t * 256 + b := by
  apply Nat.eq_of_testBit_eq
  intro i
  rw [Nat.testBit_lor, Nat.testBit_shiftLeft]
  have hmul : t * 256 = 2 ^ 8 * t := by ring
  rw [hmul, Nat.testBit_mul_pow_two_add t h i]
  rcases Nat.lt_or_ge i 8 with hi | hi
  · simp [Nat.not_le_of_lt hi, hi]
  · rw [if_neg (Nat.not_lt_of_ge hi)]
    have hpow : (256 : Nat) ≤ 2 ^ i := by
      calc (256 : Nat) = 2 ^ 8 := rfl
      _ ≤ 2 ^ i := Nat.pow_le_pow_right (by norm_num) hi
    have hb : b.testBit i = false :=
      Nat.testBit_lt_two_pow (Nat.lt_of_lt_of_le h hpow)
    simp [hb, hi]

/-- The 5-byte shift-or loop decodes the little-endian positional sum. -/
theorem decodeOffset5_eq (buf : Nat → Nat) (base : Nat) (h : ∀ i, buf i < 256) :
    decodeOffset5 buf base =
      buf base + 256 * buf (base + 1) + 256 ^ 2 * buf (base + 2)
        + 256 ^ 3 * buf (base + 3) + 256 ^ 4 * buf (base + 4) := by
  unfold decodeOffset5
  simp only [List.foldl_cons, List.foldl_nil]
  rw [Nat.zero_shiftLeft, Nat.zero_or]
  rw [shiftOr_byte_eq _ _ (h (base + 3)), shiftOr_byte_eq _ _ (h (base + 2)),
    shiftOr_byte_eq _ _ (h (base + 1)), shiftOr_byte_eq _ _ (h (base + 0))]
  have hb : base + 0 = base := by ring
  rw [hb]
  ring

/-- The 3-byte shift-or loop decodes the little-endian positional sum. -/
theorem decodeSize3_eq (buf : Nat → Nat) (base : Nat) (h : ∀ i, buf i < 256) :
    decodeSize3 buf base =
      buf (base + 5) + 256 * buf (base + 6) + 256 ^ 2 * buf (base + 7) := by
  unfold decodeSize3
  simp only [List.foldl_cons, List.foldl_nil]
  rw [Nat.zero_shiftLeft, Nat.zero_or]
  rw [shiftOr_byte_eq _ _ (h (base + 5 + 1)), shiftOr_byte_eq _ _ (h (base + 5 + 0))]
  have h0 : base + 5 + 0 = base + 5 := by ring
  have h1 : base + 5 + 1 = base + 6 := by ring
  have h2 : base + 5 + 2 = base + 7 := by ring
  rw [h0, h1, h2]
  ring

/-! ## C1 -/

/-- C1: the claim says a response whose ETag differs from the caller's
prior ETag raises `EtagMismatch`, which the facade catches exactly once,
invalidating and retrying. In the code, `FetchSource.getBytes` throws a
plain `Error` on the mismatch; since the facade's catch tests
`e instanceof EtagMismatch`, the plain error propagates on the very first
attempt — no invalidation, no retry — while an error actually named
`EtagMismatch` would have been retried once. -/
theorem c1_plain_error_skips_retry :
    fetchSourceEtagCheck 206 (some "A") (some "B") = Except.error fetchEtagError
    ∧ fetchEtagError.name ≠ "EtagMismatch"
    ∧ retryOnEtagMismatch (fun _ => (Except.error fetchEtagError : Except JsError Nat))
        = (Except.error fetchEtagError, 0)
    ∧ retryOnEtagMismatch (fun n =>
          if n = 0 then
            (Except.error { name := "EtagMismatch", message := "changed" } : Except JsError Nat)
          else Except.ok 7)
        = (Except.ok 7, 1) := by
  refine ⟨rfl, by decide, rfl, rfl⟩

/-! ## C2 -/

/-- A well-formed VTPK `p12/root.json` as assembled by
`getHeaderAndFileList` (`type` added, `metadataOffset`/`metadataLength`
recorded from the `p12/metadata.json` file entry). -/
def exampleRootJson : JsonValue :=
  JsonValue.obj
    [("type", JsonValue.str "vtpk"),
     ("name", JsonValue.str "SamplePackage"),
     ("serviceDescription", JsonValue.str "a sample"),
     ("copyrightText", JsonValue.str "an attribution"),
     ("version", JsonValue.num 1),
     ("metadataOffset", JsonValue.num 500),
     ("metadataLength", JsonValue.num 100),
     ("tileInfo", JsonValue.obj
       [("format", JsonValue.str "pbf"),
        ("rows", JsonValue.num 512),
        ("spatialReference", JsonValue.obj [("latestWkid", JsonValue.num 3857)])]),
     ("resourceInfo", JsonValue.obj [("tileCompression", JsonValue.str "gzip")]),
     ("minZoom", JsonValue.num 2),
     ("maxZoom", JsonValue.num 14),
     ("extent", JsonValue.obj
       [("xmin", JsonValue.num (-180)), ("ymin", JsonValue.num (-90)),
        ("xmax", JsonValue.num 180), ("ymax", JsonValue.num 90)])]

/-- The header built from `exampleRootJson`. -/
def exampleVtpkHeader : Option JsonValue :=
  jsonToHeader exampleRootJson (JsonValue.obj []) (JsonValue.str "etagA")

/-- C2: the claim says `getMetadata()` reads the byte range recorded for
`p12/metadata.json` in the header. The header records that range under
`metadataOffset`/`metadataLength`, but `getMetadataAttempt` passes
`header.jsonMetadataOffset`/`header.jsonMetadataLength` to
`source.getBytes` — properties the header object does not have — so the
read is issued for `(undefined, undefined)` rather than the recorded
range. -/
theorem c2_metadata_wrong_property_names :
    exampleVtpkHeader.bind (fun h => getProp h "packageType") = some (JsonValue.str "vtpk")
    ∧ exampleVtpkHeader.bind (fun h => getProp h "metadataOffset") = some (JsonValue.num 500)
    ∧ exampleVtpkHeader.bind (fun h => getProp h "metadataLength") = some (JsonValue.num 100)
    ∧ exampleVtpkHeader.bind (fun h => getMetadataRequestRange h)
        = some (JsonValue.undef, JsonValue.undef)
    ∧ JsonValue.undef ≠ JsonValue.num 500 := by
  refine ⟨rfl, rfl, rfl, rfl, fun h => JsonValue.noConfusion h⟩

/-! ## C3 -/

/-- A 48-byte central directory entry: `compressedSize = 10`,
`nameLen = 2`, no extra field or comment, `relativeOffset = 64`, and the
file name is the two-byte UTF-8 sequence `0xC3 0xA9` (U+00E9, a single
character). -/
def exampleCdBytes : List Nat :=
  [80, 75, 1, 2, 0, 0, 0, 0, 0, 0, 0, 0, 0, 0, 0, 0,
   0, 0, 0, 0, 10, 0, 0, 0, 0, 0, 0, 0, 2, 0, 0, 0,
   0, 0, 0, 0, 0, 0, 0, 0, 0, 0, 64, 0, 0, 0, 195, 169]

/-- The byte buffer over `exampleCdBytes`. -/
def exampleCdBuf : Nat → Nat := fun i => exampleCdBytes.getD i 0

/-- C3: the claim says the payload offset is
`relativeOffset + 30 + nameLen` with `nameLen` the u16 byte length at byte
28. The code computes `relativeOffset + 30 + filename.length` from the
UTF-8-decoded JS string, which is shorter than `nameLen` for multi-byte
names: here `nameLen = 2` but the decoded name has length 1, so the code
yields `64 + 31 = 95` instead of the claimed `64 + 30 + 2 = 96`. -/
theorem c3_payload_offset_uses_decoded_length :
    (parseCentralDirEntry exampleCdBuf 0).relativeOffset = 64
    ∧ getUint16LE exampleCdBuf 28 = 2
    ∧ (parseCentralDirEntry exampleCdBuf 0).filename = [233]
    ∧ (parseCentralDirEntry exampleCdBuf 0).absoluteOffset = 95
    ∧ (parseCentralDirEntry exampleCdBuf 0).absoluteOffset
        ≠ (parseCentralDirEntry exampleCdBuf 0).relativeOffset + 30
            + getUint16LE exampleCdBuf 28 := by
  refine ⟨rfl, rfl, rfl, rfl, by decide⟩

/-! ## C8 -/

/-- C8: for `dz = targetZ - parentZ <= 0`, `subdivideVectorTile` returns
the input bytes unchanged, and the result does not depend on the
decode-transform-clip-encode pipeline at all (it is never invoked). -/
theorem c8_dz_nonpositive_passthrough
    (pipeA pipeB : List Nat → Int → Int → Int → Int → Int → Int → Except String (List Nat))
    (parentPbf : List Nat) (parentZ parentX parentY targetZ targetX targetY : Int)
    (h : targetZ - parentZ ≤ 0) :
    subdivideVectorTile pipeA parentPbf parentZ parentX parentY targetZ targetX targetY
      = Except.ok parentPbf
    ∧ subdivideVectorTile pipeA parentPbf parentZ parentX parentY targetZ targetX targetY
      = subdivideVectorTile pipeB parentPbf parentZ parentX parentY targetZ targetX targetY := by
  constructor
  · unfold subdivideVectorTile
    rw [if_pos h]
  · unfold subdivideVectorTile
    rw [if_pos h, if_pos h]

/-- C8 witness: a concrete `dz = 0` request with two pipelines that would
disagree if consulted. -/
theorem c8_witness :
    subdivideVectorTile (fun _ _ _ _ _ _ _ => Except.error "pipeA") [1, 2, 3] 5 0 0 5 0 0
      = Except.ok [1, 2, 3]
    ∧ subdivideVectorTile (fun _ _ _ _ _ _ _ => Except.error "pipeA") [1, 2, 3] 5 0 0 5 0 0
      = subdivideVectorTile (fun _ _ _ _ _ _ _ => Except.ok [9]) [1, 2, 3] 5 0 0 5 0 0 :=
  c8_dz_nonpositive_passthrough _ _ [1, 2, 3] 5 0 0 5 0 0 (by decide)

/-! ## C10 -/

/-- `pruneSP` does not touch the subdivided store. -/
theorem pruneSP_subdivided (c : SPCache) : (pruneSP c).subdivided = c.subdivided := by
  unfold pruneSP
  split
  · split <;> rfl
  · rfl

/-- `getHeaderState` does not touch the subdivided store. -/
theorem getHeaderState_subdivided (c : SPCache) (key : String) :
    (getHeaderState c key).subdivided = c.subdivided := by
  unfold getHeaderState
  split
  · rfl
  · rw [pruneSP_subdivided]

/-- C10: `invalidate(source)` deletes the header slot and re-issues the
header load but leaves the subdivided-tile store untouched, so
`getSubdivided` answers identically before and after the invalidation —
synthesized tiles are not refreshed by an ETag change. -/
theorem c10_invalidate_preserves_subdivided (c : SPCache) (key sourceKey : String)
    (z x y : Nat) :
    (invalidateSP c key).subdivided = c.subdivided
    ∧ getSubdivided (invalidateSP c key).subdivided sourceKey z x y
        = getSubdivided c.subdivided sourceKey z x y := by
  have hsub : (invalidateSP c key).subdivided = c.subdivided := by
    unfold invalidateSP
    split
    · rfl
    · rw [getHeaderState_subdivided]
  exact ⟨hsub, by rw [hsub]⟩

/-! ## C4 -/

/-- C4: the directory entry consulted for `(x, y)` is the 8-byte record at
byte offset `8 * (128 * (y mod 128) + (x mod 128))` of the bundle index;
its low 5 bytes (little-endian) are the tile offset, the next 3 bytes the
tile size, and a decoded size of 0 leaves the slot empty (tile absent). -/
theorem c4_bundle_directory_entry (buf : Nat → Nat) (hbytes : ∀ i, buf i < 256)
    (z x y : Nat) :
    getTileInfoFromTileIndex (deserializeIndex buf) z x y =
      (let base := 8 * (128 * (y % 128) + (x % 128))
       let offset := buf base + 256 * buf (base + 1) + 256 ^ 2 * buf (base + 2)
         + 256 ^ 3 * buf (base + 3) + 256 ^ 4 * buf (base + 4)
       let size := buf (base + 5) + 256 * buf (base + 6) + 256 ^ 2 * buf (base + 7)
       if 0 < size then
         some { row := y % 128, col := x % 128, tileOffset := offset, tileSize := size }
       else none) := by
  have hy : y % 128 < 128 := by omega
  have hx : x % 128 < 128 := by omega
  unfold getTileInfoFromTileIndex deserializeIndex
  simp only [List.get?_map, List.get?_range hy, List.get?_range hx, Option.map_some',
    Option.some_bind]
  unfold deserializeEntry
  simp only [Nat.mod_mod_of_dvd _ (dvd_refl 128), decodeOffset5_eq buf _ hbytes,
    decodeSize3_eq buf _ hbytes]

/-- C4 witness: the constant buffer of byte 7 decodes, at any coordinate,
to an entry with offset `7 * (1 + 256 + 256^2 + 256^3 + 256^4)` and size
`7 * (1 + 256 + 256^2)`. -/
theorem c4_witness :
    getTileInfoFromTileIndex (deserializeIndex fun _ => 7) 0 5 9 =
      some { row := 9, col := 5, tileOffset := 30182672135, tileSize := 460551 } := by
  rw [c4_bundle_directory_entry (fun _ => 7) (fun i => by norm_num) 0 5 9]
  norm_num

/-! ## C6 -/

/-- C6 counterexample: the claim says a point exactly on the clip-box
boundary is not retained ("strictly inside"); with buffer 128 and extent
4096 the box is `[-128, 4224]`, and the point `(-128, 0)` on its left edge
is retained by `clipPoints`, though it is not strictly inside. -/
theorem c6_boundary_point_retained :
    clipPoints [[{ x := -128, y := 0 }]] (-128) 4224 = [[{ x := -128, y := 0 }]]
    ∧ ¬ ((-128 : ℚ) < -128) := by
  refine ⟨by decide, by norm_num⟩

/-- C6 (amended): after the transform, a point is retained in the output
geometry exactly when it lies inside the closed clip box on both axes —
boundary points included. -/
theorem c6_closed_box_membership (geometry : List (List Pt)) (lo hi : ℚ) (p : Pt) :
    [p] ∈ clipPoints geometry lo hi ↔
      (∃ ring ∈ geometry, p ∈ ring)
        ∧ (lo ≤ p.x ∧ p.x ≤ hi ∧ lo ≤ p.y ∧ p.y ≤ hi) := by
  induction geometry with
  | nil => simp [clipPoints]
  | cons ring rest ih =>
    rw [clipPoints]
    simp only [List.mem_append, ih, List.mem_map, List.mem_filter, List.mem_cons]
    constructor
    · rintro (⟨q, ⟨hq, hbox⟩, heq⟩ | ⟨⟨r, hr, hpr⟩, hbox⟩)
      · obtain rfl : q = p := by
          cases heq
          rfl
        exact ⟨⟨ring, Or.inl rfl, hq⟩, by simpa using hbox⟩
      · exact ⟨⟨r, Or.inr hr, hpr⟩, hbox⟩
    · rintro ⟨⟨r, hr | hr, hpr⟩, hbox⟩
      · subst hr
        exact Or.inl ⟨p, ⟨hpr, by simpa using hbox⟩, rfl⟩
      · exact Or.inr ⟨⟨r, hr, hpr⟩, hbox⟩

/-! ## C7 -/

/-- For polygons the segment loop never flushes: the emitted-slices
accumulator passes through one step unchanged. -/
theorem clipAxisStep_polygon_snd (p1 p2 : Pt) (start endv : ℚ) (axis : Nat)
    (slice : List Pt) (out : List (List Pt)) :
    (clipAxisStep p1 p2 start endv axis true slice out).2 = out := by
  unfold clipAxisStep
  simp

/-- For polygons the whole segment loop leaves the emitted-slices
accumulator unchanged. -/
theorem clipAxisLoop_polygon_snd (start endv : ℚ) (axis : Nat) :
    ∀ (line slice : List Pt) (out : List (List Pt)),
      (clipAxisLoop start endv axis true line slice out).2 = out := by
  intro line
  induction line with
  | nil => intro slice out; rfl
  | cons p1 tail ih =>
    intro slice out
    cases tail with
    | nil => rfl
    | cons p2 rest =>
      simp only [clipAxisLoop]
      rw [ih, clipAxisStep_polygon_snd]

/-- The re-closing fix-up produces a ring whose first point equals its
last. -/
theorem closeSlicePolygon_closed (slice : List Pt) (h : closeSlicePolygon slice ≠ []) :
    (closeSlicePolygon slice).head? = (closeSlicePolygon slice).getLast? := by
  cases slice with
  | nil => exact absurd rfl h
  | cons hd tl =>
    simp only [closeSlicePolygon]
    by_cases hc : (hd :: tl).getLast (List.cons_ne_nil hd tl) = hd
    · rw [if_pos hc]
      rw [List.getLast?_eq_getLast (hd :: tl) (List.cons_ne_nil hd tl), hc]
      rfl
    · rw [if_neg hc]
      rw [List.getLast?_concat]
      rfl

/-- C7: every ring produced by the polygon pass of `clipAxis` is non-empty
and closed — its first point equals its last point (a ring whose endpoints
differed got a copy of its first point appended; single-point rings are
trivially closed). -/
theorem c7_polygon_rings_closed (line : List Pt) (start endv : ℚ) (axis : Nat)
    (seg : List Pt) (hmem : seg ∈ clipAxis line start endv axis true) :
    seg ≠ [] ∧ seg.head? = seg.getLast? := by
  simp only [clipAxis, clipAxisLoop_polygon_snd, List.nil_append] at hmem
  simp only [if_true] at hmem
  split at hmem
  · rename_i hlen
    rw [List.mem_singleton] at hmem
    subst hmem
    constructor
    · intro hnil
      rw [hnil] at hlen
      simp at hlen
    · apply closeSlicePolygon_closed
      intro hnil
      rw [hnil] at hlen
      simp at hlen
  · simp at hmem

/-- C7 witness: a concrete closed triangle fully inside the box survives
the polygon pass as a non-empty closed ring. -/
theorem c7_witness :
    ([{ x := 0, y := 0 }, { x := 1, y := 0 }, { x := 0, y := 0 }] : List Pt) ≠ []
    ∧ ([{ x := 0, y := 0 }, { x := 1, y := 0 }, { x := 0, y := 0 }] : List Pt).head?
        = ([{ x := 0, y := 0 }, { x := 1, y := 0 }, { x := 0, y := 0 }] : List Pt).getLast? :=
  c7_polygon_rings_closed [{ x := 0, y := 0 }, { x := 1, y := 0 }, { x := 0, y := 0 }]
    (-10) 10 0 [{ x := 0, y := 0 }, { x := 1, y := 0 }, { x := 0, y := 0 }] (by decide)

/-! ## C5 -/

/-- The ancestor-search loop equals the specified first-hit search over the
visited-ancestors list. -/
theorem findParentLoop_eq_spec (cov : CoverageFun) (minZoom : Nat) :
    ∀ z x y, findParentLoop cov minZoom z x y = specSubdivisionParent cov minZoom z x y := by
  intro z
  induction z with
  | zero =>
    intro x y
    simp [findParentLoop, specSubdivisionParent, visitedAncestors]
  | succ k ih =>
    intro x y
    by_cases hk : minZoom < k + 1
    · have hsub : k + 1 - minZoom = (k - minZoom) + 1 := by omega
      rw [findParentLoop, if_pos hk]
      rw [specSubdivisionParent, visitedAncestors, hsub, List.range_succ_eq_map]
      rw [List.map_cons, List.find?_cons]
      have hhead : (k + 1 - 1 - 0, x / 2 ^ (0 + 1), y / 2 ^ (0 + 1)) = (k, x / 2, y / 2) := by
        norm_num
      rw [hhead]
      by_cases hc : covValue cov k (x / 2) (y / 2) = some (CovVal.num 1)
      · simp [hc]
      · rw [if_neg hc]
        have hdec : (decide (covValue cov k (x / 2) (y / 2) = some (CovVal.num 1))) = false := by
          simp [hc]
        rw [hdec]
        rw [ih (x / 2) (y / 2)]
        rw [specSubdivisionParent, visitedAncestors]
        congr 1
        rw [List.map_map]
        apply List.map_congr_left
        intro i _
        have h1 : k + 1 - 1 - Nat.succ i = k - 1 - i := by omega
        have h2 : x / 2 ^ (Nat.succ i + 1) = x / 2 / 2 ^ (i + 1) := by
          rw [Nat.div_div_eq_div_mul]
          congr 1
          simp [Nat.succ_eq_add_one, pow_succ]
          ring
        have h3 : y / 2 ^ (Nat.succ i + 1) = y / 2 / 2 ^ (i + 1) := by
          rw [Nat.div_div_eq_div_mul]
          congr 1
          simp [Nat.succ_eq_add_one, pow_succ]
          ring
        simp only [Function.comp, h2, h3, Prod.mk.injEq]
        exact ⟨h1.symm, trivial⟩
    · have hzero : k + 1 - minZoom = 0 := by omega
      rw [findParentLoop, if_neg hk]
      simp [specSubdivisionParent, visitedAncestors, hzero]

/-- C5: the ancestor search visits `(z-1, x>>1, y>>1)`, then repeatedly
halves, down to and including level `minZoom`; the subdivision parent is
the first visited ancestor whose coverage value is exactly the number 1;
and when no visited ancestor has value 1, `getZxy` (on an indexed VTPK
with no direct tile) returns `undefined`. -/
theorem c5_ancestor_search (cov : CoverageFun) (env : TileEnv) (z x y : Nat)
    (cache : SubCache) :
    findParentLoop cov env.header.minZoom z x y
        = specSubdivisionParent cov env.header.minZoom z x y
    ∧ (env.header.packageType = "vtpk" →
        env.header.coverageMap = some cov →
        directLookup env z x y = none →
        specSubdivisionParent cov env.header.minZoom z x y = none →
        (getZxy env z x y cache).tile = none) := by
  refine ⟨findParentLoop_eq_spec cov env.header.minZoom z x y, ?_⟩
  intro hpt hcov hdirect hspec
  have hloop : findParentLoop cov env.header.minZoom z x y = none :=
    (findParentLoop_eq_spec cov env.header.minZoom z x y).trans hspec
  unfold getZxy
  rw [getZxyAttempt]
  by_cases hz : z < env.header.minZoom ∨ env.header.maxZoom < z
  · rw [if_pos hz]
  · rw [if_neg hz, hdirect]
    simp only [hpt, if_pos, hcov]
    split
    · rename_i hfp
      rw [hloop] at hfp
      exact Option.noConfusion hfp
    · rfl

/-- A coverage map whose every stored node is a non-scalar (so no ancestor
carries the value 1). -/
def covNone : CoverageFun := fun _ => some fun _ => some fun _ => some CovVal.arr

/-- An indexed-VTPK environment with an empty file table and the all-blob
coverage map. -/
def envC5 : TileEnv :=
  { header :=
      { type := "vtpk", packageType := "vtpk", minZoom := 0, maxZoom := 5,
        files := fun _ => none, coverageMap := some covNone, etag := none },
    tileIndexOf := fun _ => [],
    readTile := fun _ _ => { data := [], cacheControl := none, expires := none },
    subdivideOracle := fun _ _ _ _ _ _ _ => none,
    maxDz := 8, maxCacheEntries := 100, sourceKey := "pkg" }

/-- C5 witness: a concrete request with no direct tile and no value-1
ancestor returns `undefined`. -/
theorem c5_witness :
    directLookup envC5 3 2 1 = none
    ∧ specSubdivisionParent covNone 0 3 2 1 = none
    ∧ (getZxy envC5 3 2 1 []).tile = none :=
  ⟨rfl, by decide, (c5_ancestor_search covNone envC5 3 2 1 []).2 rfl rfl rfl (by decide)⟩

/-! ## C9 -/

/-- C9: on an indexed VTPK whose found ancestor (a direct hit, as a
coverage value of 1 promises) lies more than `maxDz` levels above the
target and with no cached synthesis for the target: `getZxy` returns
`undefined`, the subdivider is not invoked, and the subdivided-tile store
is unchanged. -/
theorem c9_maxdz_cap (env : TileEnv) (cov : CoverageFun) (z x y pz px py : Nat)
    (r : TileResult) (cache : SubCache)
    (hpt : env.header.packageType = "vtpk")
    (hcov : env.header.coverageMap = some cov)
    (hz : ¬(z < env.header.minZoom ∨ env.header.maxZoom < z))
    (hdirect : directLookup env z x y = none)
    (hfp : findParentLoop cov env.header.minZoom z x y = some (pz, px, py))
    (hparent : directLookup env pz px py = some r)
    (hnocache : getSubdivided cache env.sourceKey z x y = none)
    (hdz : env.maxDz < z - pz) :
    (getZxy env z x y cache).tile = none
    ∧ (getZxy env z x y cache).cache = cache
    ∧ (getZxy env z x y cache).subdivideCalls = 0 := by
  have hge := findParentLoop_fst_ge cov env.header.minZoom z x y pz px py hfp
  have hlt := findParentLoop_fst_lt cov env.header.minZoom z x y pz px py hfp
  have hrange : ¬(pz < env.header.minZoom ∨ env.header.maxZoom < pz) := by
    push_neg at hz ⊢
    exact ⟨hge, le_trans (le_of_lt hlt) hz.2⟩
  have hparentCall : getZxyAttempt env pz px py cache
      = { tile := some r, cache := cache, subdivideCalls := 0 } := by
    rw [getZxyAttempt, if_neg hrange, hparent]
  have hmain : getZxyAttempt env z x y cache
      = { tile := none, cache := cache, subdivideCalls := 0 } := by
    rw [getZxyAttempt, if_neg hz, hdirect]
    simp only [hpt, if_pos, hcov]
    split
    · rename_i pz2 px2 py2 hfp2
      rw [hfp] at hfp2
      cases hfp2
      rw [hparentCall]
      simp only [hnocache, if_pos hdz]
    · rename_i hfp2
      rw [hfp] at hfp2
  unfold getZxy
  rw [hmain]
  exact ⟨rfl, rfl, rfl⟩

/-- A coverage map with value 1 exactly at level 4 (non-scalar nodes
elsewhere). -/
def covC9 : CoverageFun :=
  fun pz =>
    if pz = 4 then some fun _ => some fun _ => some (CovVal.num 1)
    else some fun _ => some fun _ => some CovVal.arr

/-- A bundle directory whose every slot holds a 5-byte tile at offset 0. -/
def tileIndexC9 : List (List (Option TileInfo)) :=
  List.replicate 128
    (List.replicate 128 (some { row := 0, col := 0, tileOffset := 0, tileSize := 5 }))

/-- An indexed VTPK with a real tile bundle only at level 4 and a `maxDz`
cap of 2. -/
def envC9 : TileEnv :=
  { header :=
      { type := "vtpk", packageType := "vtpk", minZoom := 0, maxZoom := 10,
        files := fun s =>
          if s = "p12/tile/L04/R0000C0000.bundle" then
            some { size := 10, relativeOffset := 100, absoluteOffset := 140 }
          else none,
        coverageMap := some covC9, etag := none },
    tileIndexOf := fun _ => tileIndexC9,
    readTile := fun _ _ => { data := [1], cacheControl := none, expires := none },
    subdivideOracle := fun _ _ _ _ _ _ _ => some [9],
    maxDz := 2, maxCacheEntries := 100, sourceKey := "pkg9" }

/-- C9 witness: the request (10, 0, 0) whose nearest value-1 ancestor sits
at level 4 (dz = 6 > maxDz = 2) returns `undefined` without invoking the
subdivider or touching the subdivided store. -/
theorem c9_witness :
    directLookup envC9 10 0 0 = none
    ∧ findParentLoop covC9 0 10 0 0 = some (4, 0, 0)
    ∧ directLookup envC9 4 0 0 = some { data := [1], cacheControl := none, expires := none }
    ∧ (getZxy envC9 10 0 0 []).tile = none
    ∧ (getZxy envC9 10 0 0 []).cache = []
    ∧ (getZxy envC9 10 0 0 []).subdivideCalls = 0 :=
  have h := c9_maxdz_cap envC9 covC9 10 0 0 4 0 0
    { data := [1], cacheControl := none, expires := none } []
    rfl rfl (by decide) (by decide) (by decide) (by decide) rfl (by decide)
  ⟨by decide, by decide, by decide, h.1, h.2.1, h.2.2⟩

end TilePkg
